import Mathlib

/-!
# go-ao: a shallow embedding of `ao.go`

`ao.go` is a cgo binding of libao.  The Go code is embedded function by
function; the libao entry points it calls (`ao_append_option`,
`ao_open_live`, `ao_open_file`, `ao_play`, `ao_close`, `ao_driver_info`,
`ao_driver_info_list`) are external and appear as the fields of `Native`,
acting on an abstract native state `σ`.  Every call that crosses the cgo
boundary is recorded as an `Event`, so that what the Go code hands to the
native layer, and in which order, can be stated.

Conventions.
* A C pointer to a device is a `Nat`, `0` being `NULL`.
* A C option list (`ao_option*`) is the list of its key/value pairs, `[]`
  being `NULL`.
* A Go `*T` that may be nil is `Nilable T`, an `os.Error` interface value is
  `Nilable Error` (`none` is nil).
* A Go panic or a read outside a native array is `none` in the result.
-/

/-- A value that may be absent: a nil Go pointer or interface, a `NULL` C
pointer, or the outcome of a Go panic. -/
abbrev Nilable (α : Type) : Type := Option α

namespace Ao

/-! ## What the C header and the platform provide -/

/-- Constants of `<ao/ao.h>` and of the platform that `ao.go` refers to by
name; the header is not part of the repository, so they are parameters. -/
structure Env where
  AO_ENODRIVER : Int
  AO_ENOTLIVE : Int
  AO_ENOTFILE : Int
  AO_EBADOPTION : Int
  AO_EOPENDEVICE : Int
  AO_EFAIL : Int
  AO_TYPE_LIVE : Int
  /-- The errno number behind `os.ENOMEM`. -/
  ENOMEM : Int
  /-- The value of `unsafe.Sizeof` on a pointer. -/
  ptrSize : Nat
  ptrSize_pos : 0 < ptrSize

/-- The values libao 1.x and Linux give to the constants of `Env`. -/
def libao : Env where
  AO_ENODRIVER := 1
  AO_ENOTFILE := 2
  AO_ENOTLIVE := 3
  AO_EBADOPTION := 4
  AO_EOPENDEVICE := 5
  AO_EFAIL := 100
  AO_TYPE_LIVE := 1
  ENOMEM := 12
  ptrSize := 8
  ptrSize_pos := by decide

/-! ## Go types (ao.go lines 16-52) -/

/-- Go `type Option struct`. -/
structure Option where
  Key : String
  Value : String
deriving DecidableEq, Repr

/-- Go `type Device struct`: the native handle, `0` for a nil `ao`. -/
structure Device where
  ao : Nat
deriving DecidableEq, Repr

/-- Go `type SampleFormat struct`. -/
structure SampleFormat where
  Bits : Int
  Rate : Int
  Channels : Int
  ByteFormat : Int
  Matrix : String
deriving DecidableEq, Repr

/-- Go `type Info struct`. -/
structure Info where
  Live : Bool
  Name : String
  ShortName : String
  Comment : String
  PreferredByteFormat : Int
  Priority : Int
  Options : List String
deriving DecidableEq, Repr

/-- Dynamic values of `os.Error` that occur in ao.go: an `os.Errno` (what a
two-result cgo call yields for a non-zero C `errno`, and what `os.ENOMEM`
is) or an `Errno` of this package (line 43). -/
inductive Error where
  | os_Errno (n : Int)
  | Errno (n : Int)
deriving DecidableEq, Repr

/-- Numeric code carried by an error value. -/
def Error.code : Error → Int
  | .os_Errno n => n
  | .Errno n => n

/-- Go `*Device`; `none` is nil. -/
abbrev DevicePtr := Nilable Device
/-- Go `*Info`; `none` is nil. -/
abbrev InfoPtr := Nilable Info
/-- Go `os.Error`; `none` is nil. -/
abbrev OsError := Nilable Error
/-- Result of a Go function that may panic; `none` is the panic. -/
abbrev OrPanic (α : Type) := Nilable α

/-- Line 46: `ENODRIVER os.Error = Errno(C.AO_ENODRIVER)`. -/
def ENODRIVER (E : Env) : OsError := some (Error.Errno E.AO_ENODRIVER)
/-- Line 47. -/
def ENOTLIVE (E : Env) : OsError := some (Error.Errno E.AO_ENOTLIVE)
/-- Line 48. -/
def ENOTFILE (E : Env) : OsError := some (Error.Errno E.AO_ENOTFILE)
/-- Line 49. -/
def EBADOPTION (E : Env) : OsError := some (Error.Errno E.AO_EBADOPTION)
/-- Line 50. -/
def EOPENDEVICE (E : Env) : OsError := some (Error.Errno E.AO_EOPENDEVICE)
/-- Line 51. -/
def EFAIL (E : Env) : OsError := some (Error.Errno E.AO_EFAIL)
/-- Go `os.ENOMEM`, which is `os.Errno(syscall.ENOMEM)`. -/
def os_ENOMEM (E : Env) : OsError := some (Error.os_Errno E.ENOMEM)

/-- The error values the package declares, with `os.ENOMEM`. -/
def errorKinds (E : Env) : List OsError :=
  [ENODRIVER E, ENOTLIVE E, ENOTFILE E, EBADOPTION E, EOPENDEVICE E, EFAIL E, os_ENOMEM E]

/-- The numeric codes of `errorKinds`. -/
def errorCodes (E : Env) : List Int :=
  [E.AO_ENODRIVER, E.AO_ENOTLIVE, E.AO_ENOTFILE, E.AO_EBADOPTION, E.AO_EOPENDEVICE,
    E.AO_EFAIL, E.ENOMEM]

/-! ## Native data -/

/-- C `ao_option*`: the key/value pairs of the linked list, head first. -/
abbrev OptList := List (String × String)

/-- A C string made by `C.CString`: its address and the text C code reads
there, which ends before the first NUL byte. -/
structure CStr where
  addr : Nat
  text : String
deriving DecidableEq, Repr

/-- What C code reads of a Go string copied by `C.CString`: the copy is
followed by a NUL byte, and a C string ends at its first NUL byte, so this
is the part of `s` before its first NUL. -/
def cText (s : String) : String :=
  String.mk (s.data.takeWhile (fun c => c != Char.ofNat 0))

/-- A Go string that holds no NUL byte. -/
def NulFree (s : String) : Prop := Char.ofNat 0 ∉ s.data

instance (s : String) : Decidable (NulFree s) := by
  unfold NulFree
  infer_instance

/-- C `ao_sample_format` as built on lines 144-150. -/
structure CSampleFormat where
  bits : Int
  rate : Int
  channels : Int
  byte_format : Int
  matrix : CStr
deriving DecidableEq, Repr

/-- C `ao_info`: `options` is the memory that `info.options` points to, one
`char*` slot per entry, and `option_count` the field of that name. -/
structure CInfo where
  type : Int
  name : String
  short_name : String
  comment : String
  preferred_byte_format : Int
  priority : Int
  options : List String
  option_count : Int
deriving DecidableEq, Repr

/-- The memory a sample pointer `raw` points to. -/
inductive RawBuf where
  | bytes (xs : List Nat)
  | int16s (xs : List Int)
deriving DecidableEq, Repr

/-- The libao entry points, acting on a native state `σ`.  The open calls
return the handle (`0` for `NULL`) and the C `errno` left by the call; the
registry calls return the memory behind the pointers they return. -/
structure Native (σ : Type) where
  ao_append_option : σ → OptList → String → String → Int × σ
  ao_open_live : σ → Int → CSampleFormat → OptList → (Nat × Int) × σ
  ao_open_file : σ → Int → CStr → Int → CSampleFormat → OptList → (Nat × Int) × σ
  ao_play : σ → Nat → RawBuf → Nat → Int × σ
  ao_close : σ → Nat → Int × σ
  ao_driver_info : σ → Int → Nilable CInfo
  ao_driver_info_list : σ → List CInfo × Int

/-- One call across the cgo boundary, with its arguments and its result. -/
inductive Event where
  | CString (p : Nat)
  | free (p : Nat)
  | ao_append_option (opts : OptList) (key value : CStr) (result : Int)
  | ao_free_options (opts : OptList)
  | ao_open_live (driver_id : Int) (fmt : CSampleFormat) (opts : OptList) (ret : Nat)
      (errno : Int)
  | ao_open_file (driver_id : Int) (filename : CStr) (overwrite : Int) (fmt : CSampleFormat)
      (opts : OptList) (ret : Nat) (errno : Int)
  | ao_play (device : Nat) (num_bytes : Nat) (ret : Int)
  | ao_close (device : Nat) (ret : Int)
deriving DecidableEq, Repr

/-- The state outside the Go heap: the native library and the C allocator,
which numbers its allocations. -/
structure World (σ : Type) where
  native : σ
  heapNext : Nat

/-- Outcome of a piece of Go code that calls into C: what it returns, the
state it leaves, and the calls it made, oldest first. -/
structure Run (σ : Type) (α : Type) where
  ret : α
  world : World σ
  events : List Event

/-- Go `C.CString(s)`: a fresh C copy of `s`, read by C as `cText s`. -/
def C_CString {σ : Type} (w : World σ) (s : String) : Run σ CStr :=
  { ret := { addr := w.heapNext, text := cText s }
    world := { w with heapNext := w.heapNext + 1 }
    events := [Event.CString w.heapNext] }

/-- Go `C.free(unsafe.Pointer(p))`. -/
def C_free (p : CStr) : List Event := [Event.free p.addr]

/-! ## Driver registry (ao.go lines 89-125) -/

/-- Read of a pointer-sized slot at byte offset `off` from the start of a
native array; `none` when the offset is not a slot of the array. -/
def readSlot {α : Type} (E : Env) (mem : List α) (off : Nat) : Nilable α :=
  if off % E.ptrSize = 0 then mem.get? (off / E.ptrSize) else none

/-- The loop of lines 100-103 and of lines 120-123: `remaining` more
iterations from index `x`, with the cursor at byte offset `p`; each
iteration stores the conversion of the slot at `p` into `out[x]` and
advances `p` by the size of a pointer.  Both loops run `len(out)` times
from index 0, so `x` stays within `out`. -/
def slotLoop {α β : Type} (E : Env) (mem : List α) (conv : α → OrPanic β) :
    Nat → Nat → Nat → List β → OrPanic (List β)
  | 0, _, _, out => some out
  | remaining + 1, x, p, out =>
    match readSlot E mem p with
    | none => none
    | some a =>
      match conv a with
      | none => none
      | some b => slotLoop E mem conv remaining (x + 1) (p + E.ptrSize) (out.set x b)

/-- Go `make([]T, n)` for a C int `n`: panics when `n` is negative. -/
def make {β : Type} (zero : β) (n : Int) : OrPanic (List β) :=
  if 0 ≤ n then some (List.replicate n.toNat zero) else none

/-- Lines 89-105. -/
def fillInfo (E : Env) (info : CInfo) : OrPanic Info :=
  match make "" info.option_count with
  | none => none
  | some options =>
    match slotLoop E info.options (fun s => some s) info.option_count.toNat 0 0 options with
    | none => none
    | some filled =>
      some { Live := decide (info.type = E.AO_TYPE_LIVE)
             Name := info.name
             ShortName := info.short_name
             Comment := info.comment
             PreferredByteFormat := info.preferred_byte_format
             Priority := info.priority
             Options := filled }

/-- Lines 107-113. -/
def DriverInfo {σ : Type} (E : Env) (N : Native σ) (w : World σ) (id : Int) :
    OrPanic (InfoPtr × OsError) :=
  match N.ao_driver_info w.native id with
  | none => some (none, ENODRIVER E)
  | some info =>
    match fillInfo E info with
    | none => none
    | some i => some (some i, none)

/-- The zero value of `Info`. -/
def Info.zero : Info :=
  { Live := false, Name := "", ShortName := "", Comment := "", PreferredByteFormat := 0,
    Priority := 0, Options := [] }

/-- Lines 115-125. -/
def DriverInfoList {σ : Type} (E : Env) (N : Native σ) (w : World σ) : OrPanic (List Info) :=
  match N.ao_driver_info_list w.native with
  | (infos, count) =>
    match make Info.zero count with
    | none => none
    | some result => slotLoop E infos (fillInfo E) result.length 0 0 result

/-! ## Registry: well-formed native data and the specified description -/

/-- A native record whose `option_count` is the number of entries of its
`options` array. -/
def CInfo.WellFormed (info : CInfo) : Prop :=
  info.option_count = (info.options.length : Int)

instance (info : CInfo) : Decidable info.WellFormed := by
  unfold CInfo.WellFormed
  infer_instance

/-- The driver description the specification gives for a native record:
its live flag, names, comment, preferred byte format, priority and, in
order, its supported option keys. -/
def describe (E : Env) (info : CInfo) : Info :=
  { Live := decide (info.type = E.AO_TYPE_LIVE)
    Name := info.name
    ShortName := info.short_name
    Comment := info.comment
    PreferredByteFormat := info.preferred_byte_format
    Priority := info.priority
    Options := info.options }

/-! ## Option list and open (ao.go lines 127-190) -/

/-- Lines 127-134.  `ao_append_option` is libao's: it returns 0 when it
cannot allocate and leaves the list as it was, and otherwise links a copy
of the two C strings it is handed at the tail of `*copt`; what it copies
is the text of `key` and `value` as C reads it, up to the first NUL byte.
Returns the result and the new `*copt`. -/
def appendOption {σ : Type} (N : Native σ) (w : World σ) (copt : OptList) (opt : Option) :
    Run σ (Int × OptList) :=
  let key := C_CString w opt.Key
  let value := C_CString key.world opt.Value
  let result := N.ao_append_option value.world.native copt key.ret.text value.ret.text
  let copt1 := if result.1 = 0 then copt else copt ++ [(key.ret.text, value.ret.text)]
  { ret := (result.1, copt1)
    world := { value.world with native := result.2 }
    events := key.events ++ value.events
      ++ [Event.ao_append_option copt key.ret value.ret result.1]
      ++ C_free key.ret ++ C_free value.ret }

/-- The loop of lines 138-143, the same on lines 163-168, from the current
`opts` over the options still to append.  The flag is `false` when the
loop left the function through `return nil, os.ENOMEM`. -/
def appendOptions {σ : Type} (N : Native σ) :
    World σ → OptList → List Option → Run σ (Bool × OptList)
  | w, opts, [] => { ret := (true, opts), world := w, events := [] }
  | w, opts, o :: rest =>
    let a := appendOption N w opts o
    if a.ret.1 = 0 then
      { ret := (false, a.ret.2)
        world := a.world
        events := a.events ++ [Event.ao_free_options a.ret.2] }
    else
      let r := appendOptions N a.world a.ret.2 rest
      { ret := r.ret, world := r.world, events := a.events ++ r.events }

/-- The second result of a two-result cgo call: nil when the C `errno` is 0
after the call, `os.Errno(errno)` otherwise. -/
def cgoErrno (errno : Int) : OsError :=
  if errno = 0 then none else some (Error.os_Errno errno)

/-- Lines 136-159.  `format` is the struct behind the non-nil pointer
`format`. -/
def OpenLive {σ : Type} (E : Env) (N : Native σ) (w : World σ) (driverID : Int)
    (format : SampleFormat) (options : List Option) : Run σ (DevicePtr × OsError) :=
  let l := appendOptions N w [] options
  if l.ret.1 = false then
    { ret := (none, os_ENOMEM E), world := l.world, events := l.events }
  else
    let opts := l.ret.2
    let matrix := C_CString l.world format.Matrix
    let fmt : CSampleFormat :=
      { bits := format.Bits
        rate := format.Rate
        channels := format.Channels
        byte_format := format.ByteFormat
        matrix := matrix.ret }
    let call := N.ao_open_live matrix.world.native driverID fmt opts
    let d : Device := { ao := call.1.1 }
    let e : OsError := cgoErrno call.1.2
    let e : OsError := if d.ao ≠ 0 then none else e
    { ret := (some d, e)
      world := { matrix.world with native := call.2 }
      events := l.events ++ matrix.events
        ++ [Event.ao_open_live driverID fmt opts call.1.1 call.1.2]
        ++ C_free fmt.matrix ++ [Event.ao_free_options opts] }

/-- Lines 161-190.  `format` is the struct behind the non-nil pointer
`format`. -/
def OpenFile {σ : Type} (E : Env) (N : Native σ) (w : World σ) (driverID : Int)
    (path : String) (overwrite : Bool) (format : SampleFormat) (options : List Option) :
    Run σ (DevicePtr × OsError) :=
  let l := appendOptions N w [] options
  if l.ret.1 = false then
    { ret := (none, os_ENOMEM E), world := l.world, events := l.events }
  else
    let opts := l.ret.2
    let filename := C_CString l.world path
    let overwrite_ : Int := if overwrite then 1 else 0
    let matrix := C_CString filename.world format.Matrix
    let fmt : CSampleFormat :=
      { bits := format.Bits
        rate := format.Rate
        channels := format.Channels
        byte_format := format.ByteFormat
        matrix := matrix.ret }
    let call := N.ao_open_file matrix.world.native driverID filename.ret overwrite_ fmt opts
    let d : Device := { ao := call.1.1 }
    let e : OsError := cgoErrno call.1.2
    let e : OsError := if d.ao ≠ 0 then none else e
    { ret := (some d, e)
      world := { matrix.world with native := call.2 }
      events := l.events ++ filename.events ++ matrix.events
        ++ [Event.ao_open_file driverID filename.ret overwrite_ fmt opts call.1.1 call.1.2]
        ++ C_free fmt.matrix ++ C_free filename.ret ++ [Event.ao_free_options opts] }

/-! ## Device methods (ao.go lines 192-206)

Each method returns the receiver as the call leaves it, then its result. -/

/-- Go `C.uint_32(n)` for a non-negative `n`. -/
def uint_32 (n : Nat) : Nat := n % 2 ^ 32

/-- Lines 192-196.  `&samples[0]` panics on an empty slice. -/
def Play8 {σ : Type} (N : Native σ) (w : World σ) (device : Device) (samples : List Nat) :
    OrPanic (Run σ (Device × Bool)) :=
  match samples with
  | [] => none
  | _ :: _ =>
    let num := uint_32 samples.length
    let call := N.ao_play w.native device.ao (RawBuf.bytes samples) num
    some { ret := (device, decide (call.1 ≠ 0))
           world := { w with native := call.2 }
           events := [Event.ao_play device.ao num call.1] }

/-- Lines 198-202.  `&samples[0]` panics on an empty slice. -/
def Play16 {σ : Type} (N : Native σ) (w : World σ) (device : Device) (samples : List Int) :
    OrPanic (Run σ (Device × Bool)) :=
  match samples with
  | [] => none
  | _ :: _ =>
    let num := uint_32 (samples.length * 2)
    let call := N.ao_play w.native device.ao (RawBuf.int16s samples) num
    some { ret := (device, decide (call.1 ≠ 0))
           world := { w with native := call.2 }
           events := [Event.ao_play device.ao num call.1] }

/-- Lines 204-206. -/
def Close {σ : Type} (N : Native σ) (w : World σ) (device : Device) : Run σ (Device × Bool) :=
  let call := N.ao_close w.native device.ao
  { ret := (device, decide (call.1 ≠ 0))
    world := { w with native := call.2 }
    events := [Event.ao_close device.ao call.1] }

/-! ## Reading a trace -/

/-- Whether the event is a call of `ao_open_live` or `ao_open_file`. -/
def Event.isOpen : Event → Bool
  | .ao_open_live _ _ _ _ _ => true
  | .ao_open_file _ _ _ _ _ _ _ => true
  | _ => false

/-- Whether the event is a call of `ao_append_option`. -/
def Event.isAppend : Event → Bool
  | .ao_append_option _ _ _ _ => true
  | _ => false

/-- Whether the event is a call of `ao_append_option` that returned 0. -/
def Event.isFailedAppend : Event → Bool
  | .ao_append_option _ _ _ r => decide (r = 0)
  | _ => false

/-- Whether the event is a call of `ao_free_options`. -/
def Event.isFreeOptions : Event → Bool
  | .ao_free_options _ => true
  | _ => false

/-- The option list handed to a native open call. -/
def Event.openOpts : Event → Nilable OptList
  | .ao_open_live _ _ opts _ _ => some opts
  | .ao_open_file _ _ _ _ opts _ _ => some opts
  | _ => none

/-- The handle a native open call returned. -/
def Event.openRet : Event → Nilable Nat
  | .ao_open_live _ _ _ ret _ => some ret
  | .ao_open_file _ _ _ _ _ ret _ => some ret
  | _ => none

/-- The `errno` a native open call left. -/
def Event.openErrno : Event → Nilable Int
  | .ao_open_live _ _ _ _ errno => some errno
  | .ao_open_file _ _ _ _ _ _ errno => some errno
  | _ => none

/-- Addresses of the C strings handed to a native open call: the channel
matrix, and the file name for `ao_open_file`. -/
def Event.openStrings : Event → List Nat
  | .ao_open_live _ fmt _ _ _ => [fmt.matrix.addr]
  | .ao_open_file _ filename _ fmt _ _ _ => [fmt.matrix.addr, filename.addr]
  | _ => []

/-- The option list an `ao_free_options` call releases. -/
def Event.freedOpts : Event → Nilable OptList
  | .ao_free_options opts => some opts
  | _ => none

/-- Number of times address `p` was allocated by `C.CString`. -/
def allocCount (p : Nat) (t : List Event) : Nat := t.count (Event.CString p)

/-- Number of times address `p` was passed to `C.free`. -/
def freeCount (p : Nat) (t : List Event) : Nat := t.count (Event.free p)

/-- The key/value pairs of a Go option sequence, in order. -/
def pairs (options : List Option) : OptList := options.map (fun o => (o.Key, o.Value))

/-- The key/value pairs of a Go option sequence, in order, each string as C
reads its `C.CString` copy. -/
def cPairs (options : List Option) : OptList :=
  options.map (fun o => (cText o.Key, cText o.Value))

/-- The release discipline of one open call, read off its trace `t`:
`ao_free_options` is called exactly once; every address that `C.CString`
allocated was allocated once and passed to `C.free` once, and nothing else
was freed; and around a native open call, no option list was released
before it, every C string it is handed (channel matrix, file name) was
allocated before it, not freed before it and freed exactly once after it,
and the option list it is handed is released after it. -/
def ReleasedOnce (t : List Event) : Prop :=
  t.countP Event.isFreeOptions = 1 ∧
  (∀ p, allocCount p t ≤ 1 ∧ freeCount p t = allocCount p t) ∧
  ∀ pre ev post, t = pre ++ ev :: post → ev.isOpen = true →
    (∀ x ∈ pre, x.isFreeOptions = false) ∧
    (∀ p ∈ ev.openStrings, allocCount p pre = 1 ∧ freeCount p pre = 0 ∧ freeCount p post = 1) ∧
    (∀ opts, ev.openOpts = some opts → Event.ao_free_options opts ∈ post)

/-- An open call that gave up on a failed append: it returns a nil
`*Device` with `os.ENOMEM`, it never calls a native open function, and
after the `ao_append_option` call that returned 0 it appends no option. -/
def AbortedOnAppend {σ : Type} (E : Env) (r : Run σ (DevicePtr × OsError)) : Prop :=
  r.ret = (none, os_ENOMEM E) ∧
  (∀ x ∈ r.events, x.isOpen = false) ∧
  ∀ pre ev post, r.events = pre ++ ev :: post → ev.isFailedAppend = true →
    ∀ x ∈ post, x.isAppend = false

/-- The error of an open call is the C `errno` as cgo renders it: whenever
the native open call returned `NULL`, the error returned is nil if the call
left `errno` at 0 and is otherwise `os.Errno(errno)`, the native code
unchanged. -/
def ErrorIsErrno {σ : Type} (r : Run σ (DevicePtr × OsError)) : Prop :=
  ∀ ev ∈ r.events, ∀ errno, ev.openRet = some 0 → ev.openErrno = some errno →
    r.ret.2 = cgoErrno errno ∧ (errno = 0 → r.ret.2 = none) ∧
    (errno ≠ 0 → r.ret.2 = some (Error.os_Errno errno))

/-! ## A test double for the native layer -/

/-- A live driver record in the shape libao gives its null driver. -/
def nullInfo : CInfo :=
  { type := 1
    name := "Null output"
    short_name := "null"
    comment := "discards samples"
    preferred_byte_format := 4
    priority := 0
    options := ["debug", "verbose", "matrix", "quiet"]
    option_count := 4 }

/-- A file driver record in the shape libao gives its raw driver. -/
def rawInfo : CInfo :=
  { type := 2
    name := "RAW sample output"
    short_name := "raw"
    comment := "writes raw samples"
    preferred_byte_format := 4
    priority := 0
    options := ["byteorder", "matrix"]
    option_count := 2 }

/-- A native layer with two drivers, `0` (live) and `1` (file).  Its state
is the number of `ao_append_option` calls that can still allocate.
`ao_open_live` yields handle 7 for driver 0, fails for driver 2 without
touching `errno`, and fails with `AO_ENODRIVER` otherwise; `ao_open_file`
yields handle 9 for driver 1 when told to overwrite, fails with libao's
`AO_EFILEEXISTS` (7) when not, and fails with `AO_ENODRIVER` otherwise. -/
def stub : Native Nat where
  ao_append_option := fun s _ _ _ => if s = 0 then (0, 0) else (1, s - 1)
  ao_open_live := fun s id _ _ =>
    if id = 0 then ((7, 0), s) else if id = 2 then ((0, 0), s) else ((0, 1), s)
  ao_open_file := fun s id _ overwrite _ _ =>
    if id = 1 then (if overwrite = 0 then ((0, 7), s) else ((9, 0), s)) else ((0, 1), s)
  ao_play := fun s _ _ _ => (1, s)
  ao_close := fun s _ => (1, s)
  ao_driver_info := fun _ id =>
    if id = 0 then some nullInfo else if id = 1 then some rawInfo else none
  ao_driver_info_list := fun _ => ([nullInfo, rawInfo], 2)

/-- One option whose key and value each hold a NUL byte. -/
def nulOption : List Option := [{ Key := "a\x00b", Value := "v\x00w" }]

/-- Three options, as an application would pass them. -/
def threeOptions : List Option :=
  [{ Key := "debug", Value := "1" }, { Key := "matrix", Value := "L,R" },
    { Key := "quiet", Value := "1" }]

/-- A world in which `stub` can allocate `budget` option nodes. -/
def world0 (budget : Nat) : World Nat := { native := budget, heapNext := 100 }

/-- CD-quality stereo in native byte order, default channel matrix. -/
def cdFormat : SampleFormat :=
  { Bits := 16, Rate := 44100, Channels := 2, ByteFormat := 4, Matrix := "" }

/-! # Theorems -/

/-! ## Registry: what the two loops compute -/

theorem take_set_same {β : Type} (l : List β) (n : Nat) (b : β) :
    (l.set n b).take n = l.take n := by
  rw [List.set_take]
  exact List.set_eq_of_length_le (by simp)

theorem readSlot_index {α : Type} (E : Env) (mem : List α) (x : Nat) :
    readSlot E mem (x * E.ptrSize) = mem.get? x := by
  have hp := E.ptrSize_pos
  simp [readSlot, Nat.mul_div_cancel _ hp]

theorem slotLoop_spec {α β : Type} (E : Env) (mem : List α) (conv : α → OrPanic β)
    (g : α → β) (hconv : ∀ a ∈ mem, conv a = some (g a)) :
    ∀ (remaining x : Nat) (out : List β), x + remaining = mem.length →
      out.length = mem.length →
      slotLoop E mem conv remaining x (x * E.ptrSize) out
        = some (out.take x ++ (mem.drop x).map g) := by
  intro remaining
  induction remaining with
  | zero =>
    intro x out hx hout
    have hx2 : x = mem.length := by omega
    simp [slotLoop, hx2, ← hout]
  | succ r ih =>
    intro x out hx hout
    have hlt : x < mem.length := by omega
    have hget : mem.get? x = some (mem.get ⟨x, hlt⟩) := List.get?_eq_get hlt
    have hmem : mem.get ⟨x, hlt⟩ ∈ mem := List.get_mem _ _ _
    have hp : x * E.ptrSize + E.ptrSize = (x + 1) * E.ptrSize := by ring
    rw [slotLoop, readSlot_index, hget]
    simp only [hconv _ hmem, hp]
    rw [ih (x + 1) _ (by omega) (by simpa using hout)]
    have hdrop : mem.drop x = mem.get ⟨x, hlt⟩ :: mem.drop (x + 1) := by
      exact List.drop_eq_getElem_cons hlt
    have hlt2 : x < out.length := by omega
    have hset : (out.set x (g (mem.get ⟨x, hlt⟩)))[x]? = some (g (mem.get ⟨x, hlt⟩)) := by
      simp [List.getElem?_set_self, hlt2]
    rw [hdrop, List.take_succ, take_set_same, hset]
    simp only [Option.toList, List.append_assoc, List.cons_append, List.nil_append,
      List.map_cons]


theorem fillInfo_spec (E : Env) (info : CInfo) (hwf : info.WellFormed) :
    fillInfo E info = some (describe E info) := by
  unfold CInfo.WellFormed at hwf
  have hnn : (0 : Int) ≤ info.option_count := by omega
  have hn : info.option_count.toNat = info.options.length := by omega
  have hloop := slotLoop_spec E info.options (fun s => some s) (fun s => s)
    (fun _ _ => rfl) info.options.length 0 (List.replicate info.options.length "")
    (by simp) (by simp)
  simp only [Nat.zero_mul, List.take_zero, List.drop_zero, List.map_id_fun, id_eq,
    List.nil_append, List.map_id] at hloop
  simp only [fillInfo, make, hnn, if_true, hn, hloop, describe]
  simp

/-- Claim C8.  `DriverInfo(id)` returns `(nil, ENODRIVER)` exactly when the
native lookup `ao_driver_info(id)` returns `NULL`, and for an id the
registry knows (its record holding as many option keys as it counts) it
returns the description of that record with a nil error. -/
theorem DriverInfo_spec {σ : Type} (E : Env) (N : Native σ) (w : World σ) (id : Int)
    (hwf : ∀ info, N.ao_driver_info w.native id = some info → info.WellFormed) :
    (N.ao_driver_info w.native id = none ↔ DriverInfo E N w id = some (none, ENODRIVER E)) ∧
    (∀ info, N.ao_driver_info w.native id = some info →
      DriverInfo E N w id = some (some (describe E info), none)) := by
  cases h : N.ao_driver_info w.native id with
  | none => simp [DriverInfo, h]
  | some info =>
    have hfill := fillInfo_spec E info (hwf info h)
    simp [DriverInfo, h, hfill, ENODRIVER]

/-- Claim C9.  When the native list holds as many records as the count it
reports, each with as many option keys as it counts, `DriverInfoList`
returns (without panic) one entry per record: its length is the native
count, its i-th entry describes the i-th record, and that entry's
`Options` are the record's option keys, in order and `option_count` many. -/
theorem DriverInfoList_spec {σ : Type} (E : Env) (N : Native σ) (w : World σ)
    (hcount : (N.ao_driver_info_list w.native).2
      = ((N.ao_driver_info_list w.native).1.length : Int))
    (hwf : ∀ info ∈ (N.ao_driver_info_list w.native).1, info.WellFormed) :
    ∃ result, DriverInfoList E N w = some result ∧
      (result.length : Int) = (N.ao_driver_info_list w.native).2 ∧
      ∀ i info, (N.ao_driver_info_list w.native).1.get? i = some info →
        ∃ entry, result.get? i = some entry ∧ entry = describe E info ∧
          (entry.Options.length : Int) = info.option_count ∧
          entry.Options = info.options := by
  rcases hn : N.ao_driver_info_list w.native with ⟨infos, count⟩
  rw [hn] at hcount hwf
  simp only at hcount hwf ⊢
  subst hcount
  have hloop := slotLoop_spec E infos (fillInfo E) (describe E)
    (fun a ha => fillInfo_spec E a (hwf a ha)) infos.length 0
    (List.replicate infos.length Info.zero) (by simp) (by simp)
  simp only [Nat.zero_mul, List.take_zero, List.drop_zero, List.nil_append] at hloop
  refine ⟨infos.map (describe E), ?_, by simp, ?_⟩
  · simp [DriverInfoList, hn, make, hloop]
  · intro i info hi
    have hi2 : infos[i]? = some info := by simpa using hi
    refine ⟨describe E info, by simp [hi2], rfl, ?_, rfl⟩
    have := hwf info (List.get?_mem hi)
    unfold CInfo.WellFormed at this
    simp [describe, this]


/-- Witness of claim C8: driver 0 of the test double. -/
theorem DriverInfo_spec_witness :
    (∀ info, stub.ao_driver_info (world0 0).native 0 = some info → info.WellFormed) ∧
    DriverInfo libao stub (world0 0) 0 = some (some (describe libao nullInfo), none) :=
  ⟨by intro info h; cases h; decide,
    (DriverInfo_spec libao stub (world0 0) 0 (by intro info h; cases h; decide)).2
      nullInfo rfl⟩

/-- Witness of claim C9: the two drivers of the test double. -/
theorem DriverInfoList_spec_witness :
    (stub.ao_driver_info_list (world0 0).native).2
      = ((stub.ao_driver_info_list (world0 0).native).1.length : Int) ∧
    (∀ info ∈ (stub.ao_driver_info_list (world0 0).native).1, info.WellFormed) ∧
    ∃ result, DriverInfoList libao stub (world0 0) = some result ∧
      (result.length : Int) = (stub.ao_driver_info_list (world0 0).native).2 ∧
      ∀ i info, (stub.ao_driver_info_list (world0 0).native).1.get? i = some info →
        ∃ entry, result.get? i = some entry ∧ entry = describe libao info ∧
          (entry.Options.length : Int) = info.option_count ∧
          entry.Options = info.options :=
  ⟨by decide, by decide, DriverInfoList_spec libao stub (world0 0) (by decide) (by decide)⟩

/-! ## The option loop -/

theorem appendOption_events {σ : Type} (N : Native σ) (w : World σ) (copt : OptList)
    (opt : Option) :
    (appendOption N w copt opt).events
      = [Event.CString w.heapNext, Event.CString (w.heapNext + 1),
          Event.ao_append_option copt ⟨w.heapNext, cText opt.Key⟩
            ⟨w.heapNext + 1, cText opt.Value⟩ (appendOption N w copt opt).ret.1,
          Event.free w.heapNext, Event.free (w.heapNext + 1)] := rfl

theorem appendOption_heapNext {σ : Type} (N : Native σ) (w : World σ) (copt : OptList)
    (opt : Option) : (appendOption N w copt opt).world.heapNext = w.heapNext + 2 := rfl

theorem appendOption_opts {σ : Type} (N : Native σ) (w : World σ) (copt : OptList)
    (opt : Option) :
    (appendOption N w copt opt).ret.2
      = if (appendOption N w copt opt).ret.1 = 0 then copt
        else copt ++ [(cText opt.Key, cText opt.Value)] := rfl

theorem appendOptions_nil {σ : Type} (N : Native σ) (w : World σ) (opts : OptList) :
    appendOptions N w opts [] = { ret := (true, opts), world := w, events := [] } := rfl

theorem appendOptions_cons_fail {σ : Type} (N : Native σ) (w : World σ) (opts : OptList)
    (o : Option) (rest : List Option) (h : (appendOption N w opts o).ret.1 = 0) :
    appendOptions N w opts (o :: rest)
      = { ret := (false, (appendOption N w opts o).ret.2)
          world := (appendOption N w opts o).world
          events := (appendOption N w opts o).events
            ++ [Event.ao_free_options (appendOption N w opts o).ret.2] } := by
  simp [appendOptions, h]

theorem appendOptions_cons_ok {σ : Type} (N : Native σ) (w : World σ) (opts : OptList)
    (o : Option) (rest : List Option) (h : (appendOption N w opts o).ret.1 ≠ 0) :
    appendOptions N w opts (o :: rest)
      = { ret := (appendOptions N (appendOption N w opts o).world
                    (appendOption N w opts o).ret.2 rest).ret
          world := (appendOptions N (appendOption N w opts o).world
                    (appendOption N w opts o).ret.2 rest).world
          events := (appendOption N w opts o).events
            ++ (appendOptions N (appendOption N w opts o).world
                    (appendOption N w opts o).ret.2 rest).events } := by
  simp [appendOptions, h]

theorem appendOptions_heapNext {σ : Type} (N : Native σ) (options : List Option) :
    ∀ (w : World σ) (opts : OptList),
      w.heapNext ≤ (appendOptions N w opts options).world.heapNext := by
  induction options with
  | nil => intro w opts; simp [appendOptions_nil]
  | cons o rest ih =>
    intro w opts
    by_cases h : (appendOption N w opts o).ret.1 = 0
    · rw [appendOptions_cons_fail N w opts o rest h]
      simp [appendOption_heapNext]
    · rw [appendOptions_cons_ok N w opts o rest h]
      have := ih (appendOption N w opts o).world (appendOption N w opts o).ret.2
      rw [appendOption_heapNext] at this
      simp only
      omega

theorem appendOptions_counts {σ : Type} (N : Native σ) (options : List Option) :
    ∀ (w : World σ) (opts : OptList) (p : Nat),
      allocCount p (appendOptions N w opts options).events
          = (if w.heapNext ≤ p ∧ p < (appendOptions N w opts options).world.heapNext
              then 1 else 0) ∧
      freeCount p (appendOptions N w opts options).events
          = (if w.heapNext ≤ p ∧ p < (appendOptions N w opts options).world.heapNext
              then 1 else 0) := by
  induction options with
  | nil =>
    intro w opts p
    have hno : ¬ (w.heapNext ≤ p ∧ p < w.heapNext) := by omega
    simp [appendOptions_nil, allocCount, freeCount, hno]
  | cons o rest ih =>
    intro w opts p
    by_cases h : (appendOption N w opts o).ret.1 = 0
    · rw [appendOptions_cons_fail N w opts o rest h]
      simp only [appendOption_events, appendOption_heapNext, allocCount, freeCount,
        List.cons_append, List.nil_append, List.count_cons, List.count_nil, beq_iff_eq,
        Event.CString.injEq, Event.free.injEq, reduceCtorEq, if_false]
      constructor <;> split_ifs <;> omega
    · rw [appendOptions_cons_ok N w opts o rest h]
      have h1 := ih (appendOption N w opts o).world (appendOption N w opts o).ret.2 p
      have h2 := appendOptions_heapNext N rest (appendOption N w opts o).world
        (appendOption N w opts o).ret.2
      rw [appendOption_heapNext] at h1 h2
      simp only [allocCount, freeCount] at h1 ⊢
      simp only [List.count_append, h1.1, h1.2]
      simp only [appendOption_events, List.count_cons, List.count_nil, beq_iff_eq,
        Event.CString.injEq, Event.free.injEq, reduceCtorEq, if_false]
      constructor <;> split_ifs <;> omega


theorem appendOptions_noOpen {σ : Type} (N : Native σ) (options : List Option) :
    ∀ (w : World σ) (opts : OptList),
      ∀ x ∈ (appendOptions N w opts options).events, x.isOpen = false := by
  induction options with
  | nil => intro w opts x hx; simp [appendOptions_nil] at hx
  | cons o rest ih =>
    intro w opts x hx
    by_cases h : (appendOption N w opts o).ret.1 = 0
    · rw [appendOptions_cons_fail N w opts o rest h, appendOption_events] at hx
      simp at hx
      rcases hx with rfl | rfl | rfl | rfl | rfl | rfl <;> rfl
    · rw [appendOptions_cons_ok N w opts o rest h] at hx
      simp only [List.mem_append] at hx
      rcases hx with hx | hx
      · rw [appendOption_events] at hx
        simp at hx
        rcases hx with rfl | rfl | rfl | rfl | rfl <;> rfl
      · exact ih _ _ x hx

theorem appendOptions_freeOptions {σ : Type} (N : Native σ) (options : List Option) :
    ∀ (w : World σ) (opts : OptList),
      (appendOptions N w opts options).events.countP Event.isFreeOptions
        = if (appendOptions N w opts options).ret.1 = true then 0 else 1 := by
  induction options with
  | nil => intro w opts; simp [appendOptions_nil]
  | cons o rest ih =>
    intro w opts
    by_cases h : (appendOption N w opts o).ret.1 = 0
    · rw [appendOptions_cons_fail N w opts o rest h, appendOption_events]
      simp [List.countP_cons, Event.isFreeOptions]
    · rw [appendOptions_cons_ok N w opts o rest h]
      simp only [List.countP_append, ih]
      rw [appendOption_events]
      simp [List.countP_cons, Event.isFreeOptions]

theorem appendOptions_ok {σ : Type} (N : Native σ) (options : List Option) :
    ∀ (w : World σ) (opts : OptList), (appendOptions N w opts options).ret.1 = true →
      (appendOptions N w opts options).ret.2 = opts ++ cPairs options ∧
      ∀ x ∈ (appendOptions N w opts options).events,
        x.isFailedAppend = false ∧ x.isFreeOptions = false := by
  induction options with
  | nil => intro w opts _; simp [appendOptions_nil, cPairs]
  | cons o rest ih =>
    intro w opts hok
    by_cases h : (appendOption N w opts o).ret.1 = 0
    · rw [appendOptions_cons_fail N w opts o rest h] at hok
      simp at hok
    · rw [appendOptions_cons_ok N w opts o rest h] at hok ⊢
      have h1 := ih _ _ hok
      refine ⟨?_, ?_⟩
      · have hopts : (appendOption N w opts o).ret.2
            = opts ++ [(cText o.Key, cText o.Value)] := by
          rw [appendOption_opts]; simp [h]
        show (appendOptions N (appendOption N w opts o).world
          (appendOption N w opts o).ret.2 rest).ret.2 = opts ++ cPairs (o :: rest)
        rw [h1.1, hopts]
        simp [cPairs]
      · intro x hx
        simp only [List.mem_append] at hx
        rcases hx with hx | hx
        · rw [appendOption_events] at hx
          simp at hx
          rcases hx with rfl | rfl | rfl | rfl | rfl <;>
            simp [Event.isFailedAppend, Event.isFreeOptions, h]
        · exact h1.2 x hx

theorem appendOptions_fail {σ : Type} (N : Native σ) (options : List Option) :
    ∀ (w : World σ) (opts : OptList), (appendOptions N w opts options).ret.1 = false →
      ∃ pre o k v,
        (appendOptions N w opts options).events
          = pre ++ Event.ao_append_option o k v 0
              :: [Event.free k.addr, Event.free v.addr,
                  Event.ao_free_options (appendOptions N w opts options).ret.2] ∧
        ∀ x ∈ pre, x.isFailedAppend = false := by
  induction options with
  | nil => intro w opts h; simp [appendOptions_nil] at h
  | cons o rest ih =>
    intro w opts hbad
    by_cases h : (appendOption N w opts o).ret.1 = 0
    · rw [appendOptions_cons_fail N w opts o rest h, appendOption_events, h]
      refine ⟨[Event.CString w.heapNext, Event.CString (w.heapNext + 1)], opts,
        ⟨w.heapNext, cText o.Key⟩, ⟨w.heapNext + 1, cText o.Value⟩, by simp, ?_⟩
      intro x hx
      simp at hx
      rcases hx with rfl | rfl <;> rfl
    · rw [appendOptions_cons_ok N w opts o rest h] at hbad ⊢
      obtain ⟨pre, o2, k, v, hev, hpre⟩ := ih _ _ hbad
      refine ⟨(appendOption N w opts o).events ++ pre, o2, k, v, ?_, ?_⟩
      · simp only [hev, List.append_assoc]
      · intro x hx
        simp only [List.mem_append] at hx
        rcases hx with hx | hx
        · rw [appendOption_events] at hx
          simp at hx
          rcases hx with rfl | rfl | rfl | rfl | rfl <;> simp [Event.isFailedAppend, h]
        · exact hpre x hx

theorem split_unique {α : Type} (p : α → Bool) :
    ∀ (a : List α) (e : α) (b pre : List α) (ev : α) (post : List α),
      (∀ x ∈ a, p x = false) → (∀ x ∈ b, p x = false) →
      a ++ e :: b = pre ++ ev :: post → p ev = true →
      pre = a ∧ ev = e ∧ post = b := by
  intro a
  induction a with
  | nil =>
    intro e b pre ev post _ hb heq hev
    cases pre with
    | nil =>
      simp only [List.nil_append, List.cons.injEq] at heq
      exact ⟨rfl, heq.1.symm, heq.2.symm⟩
    | cons x pre2 =>
      simp only [List.nil_append, List.cons_append, List.cons.injEq] at heq
      have hmem : ev ∈ b := by rw [heq.2]; simp
      have := hb ev hmem
      simp [hev] at this
  | cons a0 a ih =>
    intro e b pre ev post ha hb heq hev
    cases pre with
    | nil =>
      simp only [List.nil_append, List.cons_append, List.cons.injEq] at heq
      have := ha a0 (by simp)
      rw [heq.1, hev] at this
      simp at this
    | cons x pre2 =>
      simp only [List.cons_append, List.cons.injEq] at heq
      obtain ⟨h1, h2, h3⟩ := ih e b pre2 ev post
        (fun y hy => ha y (by simp [hy])) hb heq.2 hev
      exact ⟨by rw [heq.1, h1], h2, h3⟩


/-! ## The two open functions, path by path -/

theorem OpenLive_fail {σ : Type} (E : Env) (N : Native σ) (w : World σ) (driverID : Int)
    (format : SampleFormat) (options : List Option)
    (h : (appendOptions N w [] options).ret.1 = false) :
    OpenLive E N w driverID format options
      = { ret := (none, os_ENOMEM E)
          world := (appendOptions N w [] options).world
          events := (appendOptions N w [] options).events } := by
  simp [OpenLive, h]

theorem OpenFile_fail {σ : Type} (E : Env) (N : Native σ) (w : World σ) (driverID : Int)
    (path : String) (overwrite : Bool) (format : SampleFormat) (options : List Option)
    (h : (appendOptions N w [] options).ret.1 = false) :
    OpenFile E N w driverID path overwrite format options
      = { ret := (none, os_ENOMEM E)
          world := (appendOptions N w [] options).world
          events := (appendOptions N w [] options).events } := by
  simp [OpenFile, h]

theorem OpenLive_ok {σ : Type} (E : Env) (N : Native σ) (w : World σ) (driverID : Int)
    (format : SampleFormat) (options : List Option)
    (h : (appendOptions N w [] options).ret.1 = true) :
    ∃ (fmt : CSampleFormat) (ret : Nat) (errno : Int),
      fmt.matrix.addr = (appendOptions N w [] options).world.heapNext ∧
      (OpenLive E N w driverID format options).events
        = ((appendOptions N w [] options).events ++ [Event.CString fmt.matrix.addr])
          ++ Event.ao_open_live driverID fmt (appendOptions N w [] options).ret.2 ret errno
            :: [Event.free fmt.matrix.addr,
                Event.ao_free_options (appendOptions N w [] options).ret.2] ∧
      (OpenLive E N w driverID format options).ret
        = (some { ao := ret }, if ret ≠ 0 then none else cgoErrno errno) := by
  let fmt : CSampleFormat :=
    { bits := format.Bits, rate := format.Rate, channels := format.Channels,
      byte_format := format.ByteFormat,
      matrix := ⟨(appendOptions N w [] options).world.heapNext, cText format.Matrix⟩ }
  let call := N.ao_open_live (appendOptions N w [] options).world.native driverID fmt
    (appendOptions N w [] options).ret.2
  refine ⟨fmt, call.1.1, call.1.2, rfl, ?_, ?_⟩
  · simp only [OpenLive, h, Bool.true_eq_false, if_false, C_CString, C_free,
      List.append_assoc, List.singleton_append, List.cons_append, List.nil_append]
  · simp only [OpenLive, h, Bool.true_eq_false, if_false]
    rfl

theorem OpenFile_ok {σ : Type} (E : Env) (N : Native σ) (w : World σ) (driverID : Int)
    (path : String) (overwrite : Bool) (format : SampleFormat) (options : List Option)
    (h : (appendOptions N w [] options).ret.1 = true) :
    ∃ (filename : CStr) (ow : Int) (fmt : CSampleFormat) (ret : Nat) (errno : Int),
      filename.addr = (appendOptions N w [] options).world.heapNext ∧
      fmt.matrix.addr = (appendOptions N w [] options).world.heapNext + 1 ∧
      (OpenFile E N w driverID path overwrite format options).events
        = ((appendOptions N w [] options).events
            ++ [Event.CString filename.addr, Event.CString fmt.matrix.addr])
          ++ Event.ao_open_file driverID filename ow fmt
              (appendOptions N w [] options).ret.2 ret errno
            :: [Event.free fmt.matrix.addr, Event.free filename.addr,
                Event.ao_free_options (appendOptions N w [] options).ret.2] ∧
      (OpenFile E N w driverID path overwrite format options).ret
        = (some { ao := ret }, if ret ≠ 0 then none else cgoErrno errno) := by
  let filename : CStr := ⟨(appendOptions N w [] options).world.heapNext, cText path⟩
  let ow : Int := if overwrite then 1 else 0
  let fmt : CSampleFormat :=
    { bits := format.Bits, rate := format.Rate, channels := format.Channels,
      byte_format := format.ByteFormat,
      matrix := ⟨(appendOptions N w [] options).world.heapNext + 1, cText format.Matrix⟩ }
  let call := N.ao_open_file (appendOptions N w [] options).world.native driverID filename
    ow fmt (appendOptions N w [] options).ret.2
  refine ⟨filename, ow, fmt, call.1.1, call.1.2, rfl, rfl, ?_, ?_⟩
  · simp only [OpenFile, h, Bool.true_eq_false, if_false, C_CString, C_free,
      List.append_assoc, List.singleton_append, List.cons_append, List.nil_append]
  · simp only [OpenFile, h, Bool.true_eq_false, if_false]
    rfl


/-! ## Release discipline -/

theorem releasedOnce_fail {σ : Type} (N : Native σ) (w : World σ) (options : List Option)
    (h : (appendOptions N w [] options).ret.1 = false) :
    ReleasedOnce (appendOptions N w [] options).events := by
  refine ⟨?_, ?_, ?_⟩
  · rw [appendOptions_freeOptions, h]; simp
  · intro p
    have hc := appendOptions_counts N options w [] p
    rw [hc.1, hc.2]
    constructor
    · split_ifs <;> omega
    · rfl
  · intro pre ev post heq hev
    have hmem : ev ∈ (appendOptions N w [] options).events := by rw [heq]; simp
    have := appendOptions_noOpen N options w [] ev hmem
    simp [hev] at this

theorem releasedOnce_live {σ : Type} (N : Native σ) (w : World σ) (options : List Option)
    (h : (appendOptions N w [] options).ret.1 = true) (driverID : Int) (fmt : CSampleFormat)
    (ret : Nat) (errno : Int)
    (hm : fmt.matrix.addr = (appendOptions N w [] options).world.heapNext) :
    ReleasedOnce
      (((appendOptions N w [] options).events ++ [Event.CString fmt.matrix.addr])
        ++ Event.ao_open_live driverID fmt (appendOptions N w [] options).ret.2 ret errno
          :: [Event.free fmt.matrix.addr,
              Event.ao_free_options (appendOptions N w [] options).ret.2]) := by
  have hmono := appendOptions_heapNext N options w []
  have hok := (appendOptions_ok N options w [] h).2
  have hcm := appendOptions_counts N options w [] fmt.matrix.addr
  have hnolt : ¬ (w.heapNext ≤ fmt.matrix.addr
      ∧ fmt.matrix.addr < (appendOptions N w [] options).world.heapNext) := by omega
  rw [if_neg hnolt] at hcm
  refine ⟨?_, ?_, ?_⟩
  · simp [List.countP_append, List.countP_cons, appendOptions_freeOptions, h,
      Event.isFreeOptions]
  · intro p
    have hc := appendOptions_counts N options w [] p
    simp only [allocCount, freeCount] at hc ⊢
    simp only [List.count_append, List.count_cons, List.count_nil, hc.1, hc.2, beq_iff_eq,
      Event.CString.injEq, Event.free.injEq, reduceCtorEq, if_false]
    constructor <;> split_ifs <;> omega
  · intro pre ev post heq hev
    obtain ⟨hpre, hevq, hpost⟩ := split_unique Event.isOpen _ _ _ pre ev post
      (by
        intro x hx
        simp only [List.mem_append, List.mem_singleton] at hx
        rcases hx with hx | rfl
        · exact appendOptions_noOpen N options w [] x hx
        · rfl)
      (by
        intro x hx
        simp at hx
        rcases hx with rfl | rfl <;> rfl)
      heq hev
    subst hpre hevq hpost
    refine ⟨?_, ?_, ?_⟩
    · intro x hx
      simp only [List.mem_append, List.mem_singleton] at hx
      rcases hx with hx | rfl
      · exact (hok x hx).2
      · rfl
    · intro p hp
      simp only [Event.openStrings, List.mem_singleton] at hp
      subst hp
      simp only [allocCount, freeCount] at hcm ⊢
      simp [List.count_append, List.count_cons, hcm.1, hcm.2]
    · intro opts ho
      simp only [Event.openOpts, Option.some.injEq] at ho
      subst ho
      simp

theorem releasedOnce_file {σ : Type} (N : Native σ) (w : World σ) (options : List Option)
    (h : (appendOptions N w [] options).ret.1 = true) (driverID : Int) (filename : CStr)
    (ow : Int) (fmt : CSampleFormat) (ret : Nat) (errno : Int)
    (hf : filename.addr = (appendOptions N w [] options).world.heapNext)
    (hm : fmt.matrix.addr = (appendOptions N w [] options).world.heapNext + 1) :
    ReleasedOnce
      (((appendOptions N w [] options).events
          ++ [Event.CString filename.addr, Event.CString fmt.matrix.addr])
        ++ Event.ao_open_file driverID filename ow fmt
            (appendOptions N w [] options).ret.2 ret errno
          :: [Event.free fmt.matrix.addr, Event.free filename.addr,
              Event.ao_free_options (appendOptions N w [] options).ret.2]) := by
  have hmono := appendOptions_heapNext N options w []
  have hok := (appendOptions_ok N options w [] h).2
  have hcm := appendOptions_counts N options w [] fmt.matrix.addr
  have hcf := appendOptions_counts N options w [] filename.addr
  have hnolt : ¬ (w.heapNext ≤ fmt.matrix.addr
      ∧ fmt.matrix.addr < (appendOptions N w [] options).world.heapNext) := by omega
  have hnolt2 : ¬ (w.heapNext ≤ filename.addr
      ∧ filename.addr < (appendOptions N w [] options).world.heapNext) := by omega
  have hne : filename.addr ≠ fmt.matrix.addr := by omega
  rw [if_neg hnolt] at hcm
  rw [if_neg hnolt2] at hcf
  refine ⟨?_, ?_, ?_⟩
  · simp [List.countP_append, List.countP_cons, appendOptions_freeOptions, h,
      Event.isFreeOptions]
  · intro p
    have hc := appendOptions_counts N options w [] p
    simp only [allocCount, freeCount] at hc ⊢
    simp only [List.count_append, List.count_cons, List.count_nil, hc.1, hc.2, beq_iff_eq,
      Event.CString.injEq, Event.free.injEq, reduceCtorEq, if_false]
    constructor <;> split_ifs <;> omega
  · intro pre ev post heq hev
    obtain ⟨hpre, hevq, hpost⟩ := split_unique Event.isOpen _ _ _ pre ev post
      (by
        intro x hx
        simp only [List.mem_append, List.mem_cons, List.mem_singleton] at hx
        rcases hx with hx | rfl | rfl | hx
        · exact appendOptions_noOpen N options w [] x hx
        · rfl
        · rfl
        · simp at hx)
      (by
        intro x hx
        simp at hx
        rcases hx with rfl | rfl | rfl <;> rfl)
      heq hev
    subst hpre hevq hpost
    refine ⟨?_, ?_, ?_⟩
    · intro x hx
      simp only [List.mem_append, List.mem_cons, List.mem_singleton] at hx
      rcases hx with hx | rfl | rfl | hx
      · exact (hok x hx).2
      · rfl
      · rfl
      · simp at hx
    · intro p hp
      simp only [Event.openStrings, List.mem_cons, List.mem_singleton] at hp
      simp only [allocCount, freeCount] at hcm hcf ⊢
      rcases hp with rfl | rfl | hp
      · simp [List.count_append, List.count_cons, hcm.1, hcm.2, hne, hne.symm]
      · simp [List.count_append, List.count_cons, hcf.1, hcf.2, hne, hne.symm]
      · simp at hp
    · intro opts ho
      simp only [Event.openOpts, Option.some.injEq] at ho
      subst ho
      simp

/-- Claim C2.  On every exit path of `OpenLive` and of `OpenFile` (an append
failing, the native open returning a handle or `NULL`), `ao_free_options`
is called exactly once, every string duplicated with `C.CString` is freed
exactly once, and the releases of the option list, of the channel matrix
and of the file name all come after the native open call, when there is
one. -/
theorem open_releases_exactly_once {σ : Type} (E : Env) (N : Native σ) (w : World σ)
    (driverID : Int) (path : String) (overwrite : Bool) (format : SampleFormat)
    (options : List Option) :
    ReleasedOnce (OpenLive E N w driverID format options).events ∧
    ReleasedOnce (OpenFile E N w driverID path overwrite format options).events := by
  cases h : (appendOptions N w [] options).ret.1 with
  | false =>
    rw [OpenLive_fail E N w driverID format options h,
      OpenFile_fail E N w driverID path overwrite format options h]
    exact ⟨releasedOnce_fail N w options h, releasedOnce_fail N w options h⟩
  | true =>
    obtain ⟨fmt, ret, errno, hm, hev, _⟩ := OpenLive_ok E N w driverID format options h
    obtain ⟨filename, ow, fmt2, ret2, errno2, hf, hm2, hev2, _⟩ :=
      OpenFile_ok E N w driverID path overwrite format options h
    rw [hev, hev2]
    exact ⟨releasedOnce_live N w options h driverID fmt ret errno hm,
      releasedOnce_file N w options h driverID filename ow fmt2 ret2 errno2 hf hm2⟩


/-! ## Append failure and the list handed to the native open -/

theorem isOpen_false_openOpts (x : Event) (h : x.isOpen = false) : x.openOpts = none := by
  cases x <;> simp_all [Event.isOpen, Event.openOpts]

theorem isFailedAppend_isOpen (x : Event) (h : x.isFailedAppend = true) : x.isOpen = false := by
  cases x <;> simp_all [Event.isFailedAppend, Event.isOpen]

theorem appendOptions_failed_iff {σ : Type} (N : Native σ) (w : World σ)
    (options : List Option) :
    (appendOptions N w [] options).ret.1 = false ↔
      ∃ x ∈ (appendOptions N w [] options).events, x.isFailedAppend = true := by
  constructor
  · intro h
    obtain ⟨pre, o, k, v, hev, _⟩ := appendOptions_fail N options w [] h
    exact ⟨Event.ao_append_option o k v 0, by rw [hev]; simp, by simp [Event.isFailedAppend]⟩
  · rintro ⟨x, hx, hfail⟩
    cases h : (appendOptions N w [] options).ret.1 with
    | false => rfl
    | true =>
      have := ((appendOptions_ok N options w [] h).2 x hx).1
      simp [hfail] at this

theorem OpenLive_failed_iff {σ : Type} (E : Env) (N : Native σ) (w : World σ)
    (driverID : Int) (format : SampleFormat) (options : List Option) :
    (∃ x ∈ (OpenLive E N w driverID format options).events, x.isFailedAppend = true) ↔
      (appendOptions N w [] options).ret.1 = false := by
  cases h : (appendOptions N w [] options).ret.1 with
  | false =>
    rw [OpenLive_fail E N w driverID format options h]
    simpa using (appendOptions_failed_iff N w options).1 h
  | true =>
    obtain ⟨fmt, ret, errno, _, hev, _⟩ := OpenLive_ok E N w driverID format options h
    simp only [Bool.true_eq_false, iff_false, not_exists, not_and, hev]
    intro x hx
    simp only [List.mem_append, List.mem_cons, List.mem_singleton, List.not_mem_nil,
      or_false] at hx
    rcases hx with (hx | rfl) | rfl | rfl | rfl
    · simpa using ((appendOptions_ok N options w [] h).2 x hx).1
    all_goals simp [Event.isFailedAppend]

theorem OpenFile_failed_iff {σ : Type} (E : Env) (N : Native σ) (w : World σ)
    (driverID : Int) (path : String) (overwrite : Bool) (format : SampleFormat)
    (options : List Option) :
    (∃ x ∈ (OpenFile E N w driverID path overwrite format options).events,
        x.isFailedAppend = true) ↔
      (appendOptions N w [] options).ret.1 = false := by
  cases h : (appendOptions N w [] options).ret.1 with
  | false =>
    rw [OpenFile_fail E N w driverID path overwrite format options h]
    simpa using (appendOptions_failed_iff N w options).1 h
  | true =>
    obtain ⟨filename, ow, fmt, ret, errno, _, _, hev, _⟩ :=
      OpenFile_ok E N w driverID path overwrite format options h
    simp only [Bool.true_eq_false, iff_false, not_exists, not_and, hev]
    intro x hx
    simp only [List.mem_append, List.mem_cons, List.mem_singleton, List.not_mem_nil,
      or_false] at hx
    rcases hx with (hx | rfl | rfl) | rfl | rfl | rfl | rfl
    · simpa using ((appendOptions_ok N options w [] h).2 x hx).1
    all_goals simp [Event.isFailedAppend]

theorem abortedOnAppend_of_fail {σ : Type} (E : Env) (N : Native σ) (w : World σ)
    (options : List Option) (h : (appendOptions N w [] options).ret.1 = false) :
    AbortedOnAppend E
      { ret := ((none : DevicePtr), os_ENOMEM E)
        world := (appendOptions N w [] options).world
        events := (appendOptions N w [] options).events } := by
  refine ⟨rfl, appendOptions_noOpen N options w [], ?_⟩
  intro pre ev post heq hev
  obtain ⟨pre0, o, k, v, hshape, hpre0⟩ := appendOptions_fail N options w [] h
  simp only at heq
  rw [hshape] at heq
  obtain ⟨_, _, hpost⟩ := split_unique Event.isFailedAppend pre0 _ _ pre ev post hpre0
    (by
      intro x hx
      simp at hx
      rcases hx with rfl | rfl | rfl <;> rfl)
    heq hev
  subst hpost
  intro x hx
  simp at hx
  rcases hx with rfl | rfl | rfl <;> rfl

/-- Claim C3.  If some `ao_append_option` call made by `OpenLive`
(likewise `OpenFile`) returns 0, the function returns a nil `*Device` with
`os.ENOMEM`, calls no native open function, and appends no option after
the failed one. -/
theorem append_failure_aborts_open {σ : Type} (E : Env) (N : Native σ) (w : World σ)
    (driverID : Int) (path : String) (overwrite : Bool) (format : SampleFormat)
    (options : List Option)
    (hlive : ∃ x ∈ (OpenLive E N w driverID format options).events,
      x.isFailedAppend = true)
    (hfile : ∃ x ∈ (OpenFile E N w driverID path overwrite format options).events,
      x.isFailedAppend = true) :
    AbortedOnAppend E (OpenLive E N w driverID format options) ∧
    AbortedOnAppend E (OpenFile E N w driverID path overwrite format options) := by
  have h1 := (OpenLive_failed_iff E N w driverID format options).1 hlive
  have h2 := (OpenFile_failed_iff E N w driverID path overwrite format options).1 hfile
  rw [OpenLive_fail E N w driverID format options h1,
    OpenFile_fail E N w driverID path overwrite format options h2]
  exact ⟨abortedOnAppend_of_fail E N w options h1, abortedOnAppend_of_fail E N w options h2⟩

/-- Witness of claim C3: the test double can allocate one option node and
is given three options. -/
theorem append_failure_aborts_open_witness :
    (∃ x ∈ (OpenLive libao stub (world0 1) 0 cdFormat threeOptions).events,
      x.isFailedAppend = true) ∧
    (∃ x ∈ (OpenFile libao stub (world0 1) 1 "/tmp/test.raw" true cdFormat
        threeOptions).events, x.isFailedAppend = true) ∧
    AbortedOnAppend libao (OpenLive libao stub (world0 1) 0 cdFormat threeOptions) ∧
    AbortedOnAppend libao
      (OpenFile libao stub (world0 1) 1 "/tmp/test.raw" true cdFormat threeOptions) :=
  ⟨by decide, by decide,
    (append_failure_aborts_open libao stub (world0 1) 0 "/tmp/test.raw" true cdFormat
      threeOptions (by decide) (by decide)).1,
    (append_failure_aborts_open libao stub (world0 1) 1 "/tmp/test.raw" true cdFormat
      threeOptions (by decide) (by decide)).2⟩


theorem filterMap_openOpts_nil (t : List Event) (h : ∀ x ∈ t, x.isOpen = false) :
    t.filterMap Event.openOpts = [] := by
  rw [List.filterMap_eq_nil_iff]
  intro x hx
  exact isOpen_false_openOpts x (h x hx)

theorem cText_of_nulFree (s : String) (h : NulFree s) : cText s = s := by
  unfold NulFree at h
  have htw : s.data.takeWhile (fun c => c != Char.ofNat 0) = s.data := by
    rw [List.takeWhile_eq_self_iff]
    intro c hc
    have hne : c ≠ Char.ofNat 0 := fun heq => h (heq ▸ hc)
    simpa using hne
  unfold cText
  rw [htw]

theorem cPairs_of_nulFree (options : List Option)
    (h : ∀ o ∈ options, NulFree o.Key ∧ NulFree o.Value) : cPairs options = pairs options := by
  unfold cPairs pairs
  apply List.map_congr_left
  intro o ho
  rw [cText_of_nulFree _ (h o ho).1, cText_of_nulFree _ (h o ho).2]

/-- Claim C4, as the code has it.  When no `ao_append_option` call made by
`OpenLive` (likewise `OpenFile`) returns 0, the function calls the native
open exactly once and the option list it passes holds one pair per option
of `options`, in order, nothing added, dropped or duplicated, each key and
value being the C string `C.CString` makes of it (the text before its first
NUL byte); when no key or value holds a NUL byte the list is exactly the
key/value pairs of `options`; with no options the list is `NULL`. -/
theorem open_passes_options_in_order {σ : Type} (E : Env) (N : Native σ) (w : World σ)
    (driverID : Int) (path : String) (overwrite : Bool) (format : SampleFormat)
    (options : List Option)
    (hlive : ∀ x ∈ (OpenLive E N w driverID format options).events,
      x.isFailedAppend = false)
    (hfile : ∀ x ∈ (OpenFile E N w driverID path overwrite format options).events,
      x.isFailedAppend = false) :
    (OpenLive E N w driverID format options).events.filterMap Event.openOpts
      = [cPairs options] ∧
    (OpenFile E N w driverID path overwrite format options).events.filterMap Event.openOpts
      = [cPairs options] ∧
    ((∀ o ∈ options, NulFree o.Key ∧ NulFree o.Value) →
      (OpenLive E N w driverID format options).events.filterMap Event.openOpts
        = [pairs options] ∧
      (OpenFile E N w driverID path overwrite format options).events.filterMap
          Event.openOpts = [pairs options]) ∧
    (OpenLive E N w driverID format []).events.filterMap Event.openOpts = [[]] ∧
    (OpenFile E N w driverID path overwrite format []).events.filterMap Event.openOpts
      = [[]] := by
  have h : (appendOptions N w [] options).ret.1 = true := by
    cases hb : (appendOptions N w [] options).ret.1 with
    | true => rfl
    | false =>
      obtain ⟨x, hx, hfail⟩ := (OpenLive_failed_iff E N w driverID format options).2 hb
      have := hlive x hx
      simp [hfail] at this
  have h2 : (appendOptions N w [] options).ret.1 = true := by
    cases hb : (appendOptions N w [] options).ret.1 with
    | true => rfl
    | false =>
      obtain ⟨x, hx, hfail⟩ :=
        (OpenFile_failed_iff E N w driverID path overwrite format options).2 hb
      have := hfile x hx
      simp [hfail] at this
  have hopts := (appendOptions_ok N options w [] h).1
  have hnil := filterMap_openOpts_nil _ (appendOptions_noOpen N options w [])
  obtain ⟨fmt, ret, errno, _, hev, _⟩ := OpenLive_ok E N w driverID format options h
  obtain ⟨filename, ow, fmt2, ret2, errno2, _, _, hev2, _⟩ :=
    OpenFile_ok E N w driverID path overwrite format options h2
  have hl : (OpenLive E N w driverID format options).events.filterMap Event.openOpts
      = [cPairs options] := by
    rw [hev]
    simp [List.filterMap_append, List.filterMap_cons, hnil, Event.openOpts, hopts]
  have hf : (OpenFile E N w driverID path overwrite format options).events.filterMap
      Event.openOpts = [cPairs options] := by
    rw [hev2]
    simp [List.filterMap_append, List.filterMap_cons, hnil, Event.openOpts, hopts]
  refine ⟨hl, hf, ?_, rfl, rfl⟩
  intro hfree
  rw [hl, hf, cPairs_of_nulFree options hfree]
  exact ⟨rfl, rfl⟩

/-- Witness of claim C4 as amended: the test double can allocate five
option nodes and is given three options without NUL bytes. -/
theorem open_passes_options_in_order_witness :
    (∀ x ∈ (OpenLive libao stub (world0 5) 0 cdFormat threeOptions).events,
      x.isFailedAppend = false) ∧
    (∀ x ∈ (OpenFile libao stub (world0 5) 1 "/tmp/test.raw" true cdFormat
        threeOptions).events, x.isFailedAppend = false) ∧
    (∀ o ∈ threeOptions, NulFree o.Key ∧ NulFree o.Value) ∧
    (OpenLive libao stub (world0 5) 0 cdFormat threeOptions).events.filterMap Event.openOpts
      = [pairs threeOptions] ∧
    (OpenFile libao stub (world0 5) 1 "/tmp/test.raw" true cdFormat
        threeOptions).events.filterMap Event.openOpts
      = [pairs threeOptions] :=
  ⟨by decide, by decide, by decide,
    ((open_passes_options_in_order libao stub (world0 5) 0 "/tmp/test.raw" true cdFormat
      threeOptions (by decide) (by decide)).2.2.1 (by decide)).1,
    ((open_passes_options_in_order libao stub (world0 5) 1 "/tmp/test.raw" true cdFormat
      threeOptions (by decide) (by decide)).2.2.1 (by decide)).2⟩

/-- Claim C4 fails as stated.  An option whose key is `a`, NUL, `b` and
whose value is `v`, NUL, `w`: no append fails, and the list the native open
receives holds the pair `a`, `v`, which is not the given pair. -/
theorem open_drops_text_after_nul :
    (∀ x ∈ (OpenLive libao stub (world0 5) 0 cdFormat nulOption).events,
      x.isFailedAppend = false) ∧
    (OpenLive libao stub (world0 5) 0 cdFormat nulOption).events.filterMap Event.openOpts
      = [[("a", "v")]] ∧
    (OpenLive libao stub (world0 5) 0 cdFormat nulOption).events.filterMap Event.openOpts
      ≠ [pairs nulOption] ∧
    (∀ x ∈ (OpenFile libao stub (world0 5) 1 "/tmp/test.raw" true cdFormat
        nulOption).events, x.isFailedAppend = false) ∧
    (OpenFile libao stub (world0 5) 1 "/tmp/test.raw" true cdFormat
        nulOption).events.filterMap Event.openOpts = [[("a", "v")]] ∧
    (OpenFile libao stub (world0 5) 1 "/tmp/test.raw" true cdFormat
        nulOption).events.filterMap Event.openOpts ≠ [pairs nulOption] := by
  decide

/-! ## What an open returns when the native open fails -/

theorem cgoErrno_cases (errno : Int) :
    (errno = 0 → cgoErrno errno = none) ∧
    (errno ≠ 0 → cgoErrno errno = some (Error.os_Errno errno)) := by
  constructor <;> intro h <;> simp [cgoErrno, h]

theorem errorIsErrno_fail {σ : Type} (E : Env) (N : Native σ) (w : World σ)
    (options : List Option) :
    ErrorIsErrno
      { ret := ((none : DevicePtr), os_ENOMEM E)
        world := (appendOptions N w [] options).world
        events := (appendOptions N w [] options).events } := by
  intro ev hev errno hret _
  have hno := appendOptions_noOpen N options w [] ev hev
  cases ev <;> simp_all [Event.isOpen, Event.openRet]

/-- Where the error of an open call comes from.  When the native open call
of `OpenLive` (likewise `OpenFile`) returns `NULL`, the error returned is
the C `errno` of that call as cgo renders it: nil when `errno` is 0, and
otherwise `os.Errno(errno)` with the native code unchanged; when an append
fails the error is `os.ENOMEM`. -/
theorem open_error_is_raw_errno {σ : Type} (E : Env) (N : Native σ) (w : World σ)
    (driverID : Int) (path : String) (overwrite : Bool) (format : SampleFormat)
    (options : List Option) :
    ErrorIsErrno (OpenLive E N w driverID format options) ∧
    ErrorIsErrno (OpenFile E N w driverID path overwrite format options) ∧
    ((∃ x ∈ (OpenLive E N w driverID format options).events, x.isFailedAppend = true) →
      (OpenLive E N w driverID format options).ret.2 = os_ENOMEM E) ∧
    ((∃ x ∈ (OpenFile E N w driverID path overwrite format options).events,
        x.isFailedAppend = true) →
      (OpenFile E N w driverID path overwrite format options).ret.2 = os_ENOMEM E) := by
  refine ⟨?_, ?_, ?_, ?_⟩
  · cases h : (appendOptions N w [] options).ret.1 with
    | false =>
      rw [OpenLive_fail E N w driverID format options h]
      exact errorIsErrno_fail E N w options
    | true =>
      obtain ⟨fmt, ret, errno, _, hev, hret⟩ := OpenLive_ok E N w driverID format options h
      intro ev hmem errno2 h0 he
      rw [hev] at hmem
      rw [hret]
      simp only [List.mem_append, List.mem_cons, List.mem_singleton, List.not_mem_nil,
        or_false] at hmem
      rcases hmem with (hx | rfl) | rfl | rfl | rfl
      · have hno := appendOptions_noOpen N options w [] ev hx
        cases ev <;> simp_all [Event.isOpen, Event.openRet]
      · simp [Event.openRet] at h0
      · simp only [Event.openRet, Event.openErrno, Option.some.injEq] at h0 he
        subst h0 he
        have := cgoErrno_cases errno
        exact ⟨rfl, this.1, this.2⟩
      · simp [Event.openRet] at h0
      · simp [Event.openRet] at h0
  · cases h : (appendOptions N w [] options).ret.1 with
    | false =>
      rw [OpenFile_fail E N w driverID path overwrite format options h]
      exact errorIsErrno_fail E N w options
    | true =>
      obtain ⟨filename, ow, fmt, ret, errno, _, _, hev, hret⟩ :=
        OpenFile_ok E N w driverID path overwrite format options h
      intro ev hmem errno2 h0 he
      rw [hev] at hmem
      rw [hret]
      simp only [List.mem_append, List.mem_cons, List.mem_singleton, List.not_mem_nil,
        or_false] at hmem
      rcases hmem with (hx | rfl | rfl) | rfl | rfl | rfl | rfl
      · have hno := appendOptions_noOpen N options w [] ev hx
        cases ev <;> simp_all [Event.isOpen, Event.openRet]
      · simp [Event.openRet] at h0
      · simp [Event.openRet] at h0
      · simp only [Event.openRet, Event.openErrno, Option.some.injEq] at h0 he
        subst h0 he
        have := cgoErrno_cases errno
        exact ⟨rfl, this.1, this.2⟩
      · simp [Event.openRet] at h0
      · simp [Event.openRet] at h0
      · simp [Event.openRet] at h0
  · intro hfail
    rw [OpenLive_fail E N w driverID format options
      ((OpenLive_failed_iff E N w driverID format options).1 hfail)]
  · intro hfail
    rw [OpenFile_fail E N w driverID path overwrite format options
      ((OpenFile_failed_iff E N w driverID path overwrite format options).1 hfail)]


/-- The error of an open call on a driver id that does not exist, on the
test double: the native open returns `NULL` with `errno` 1 and the caller
gets `os.Errno(1)`. -/
theorem open_error_missing_driver :
    Event.ao_open_live 5
        { bits := 16, rate := 44100, channels := 2, byte_format := 4,
          matrix := { addr := 100, text := "" } } [] 0 1
      ∈ (OpenLive libao stub (world0 0) 5 cdFormat []).events ∧
    (OpenLive libao stub (world0 0) 5 cdFormat []).ret.2 = some (Error.os_Errno 1) :=
  ⟨by decide,
    ((open_error_is_raw_errno libao stub (world0 0) 5 "/tmp/test.raw" true cdFormat []).1
      (Event.ao_open_live 5
        { bits := 16, rate := 44100, channels := 2, byte_format := 4,
          matrix := { addr := 100, text := "" } } [] 0 1)
      (by decide) 1 rfl rfl).2.2 (by decide)⟩

/-- Claim C7 fails on the code.  On the test double, with libao's values
of the constants:
* `OpenLive` on driver id 5, which does not exist: the native open returns
  `NULL` with `errno` `AO_ENODRIVER`, and the caller gets `os.Errno(1)`,
  which is not the package's `ENODRIVER` nor any other declared kind,
  while `DriverInfo` on the same id returns the package's `ENODRIVER`;
* `OpenFile` without overwrite on a file that exists: the native open
  returns `NULL` with libao's `AO_EFILEEXISTS` (7), and the caller gets
  `os.Errno(7)`, whose code is the code of no declared kind;
* `OpenLive` on a native open that returns `NULL` and leaves `errno` at 0:
  the caller gets a nil error. -/
theorem open_error_not_in_closed_set :
    (OpenLive libao stub (world0 0) 5 cdFormat []).events.filterMap Event.openRet = [0] ∧
    (OpenLive libao stub (world0 0) 5 cdFormat []).ret.2 = some (Error.os_Errno 1) ∧
    (OpenLive libao stub (world0 0) 5 cdFormat []).ret.2 ≠ ENODRIVER libao ∧
    (OpenLive libao stub (world0 0) 5 cdFormat []).ret.2 ∉ errorKinds libao ∧
    DriverInfo libao stub (world0 0) 5 = some (none, ENODRIVER libao) ∧
    (OpenFile libao stub (world0 0) 1 "/tmp/test.raw" false cdFormat []).events.filterMap
        Event.openRet = [0] ∧
    (OpenFile libao stub (world0 0) 1 "/tmp/test.raw" false cdFormat []).ret.2
      = some (Error.os_Errno 7) ∧
    (OpenFile libao stub (world0 0) 1 "/tmp/test.raw" false cdFormat []).ret.2
      ∉ errorKinds libao ∧
    (7 : Int) ∉ errorCodes libao ∧
    (OpenLive libao stub (world0 0) 2 cdFormat []).events.filterMap Event.openRet = [0] ∧
    (OpenLive libao stub (world0 0) 2 cdFormat []).ret.2 = none := by
  decide

/-- Claim C1 fails on the code.  On the test double, `OpenLive` and
`OpenFile` on a driver id that does not exist: the native open returns
`NULL`, and the function returns a non-nil `*Device` whose handle is nil. -/
theorem open_null_handle_returns_device :
    (OpenLive libao stub (world0 0) 5 cdFormat []).events.filterMap Event.openRet = [0] ∧
    (OpenLive libao stub (world0 0) 5 cdFormat []).ret.1 = some { ao := 0 } ∧
    (OpenFile libao stub (world0 0) 5 "/tmp/test.raw" true cdFormat []).events.filterMap
        Event.openRet = [0] ∧
    (OpenFile libao stub (world0 0) 5 "/tmp/test.raw" true cdFormat []).ret.1
      = some { ao := 0 } := by
  decide

/-! ## Device methods -/

/-- Claim C5 fails on the code at the empty buffer: `Play16` panics on
`&samples[0]` and reaches no native call. -/
theorem Play16_empty_buffer_panics {σ : Type} (N : Native σ) (w : World σ) (device : Device) :
    Play16 N w device [] = none := rfl

/-- Claim C10 fails on the code at the empty buffer: `Play8` panics on
`&samples[0]` and reaches no native call. -/
theorem Play8_empty_buffer_panics {σ : Type} (N : Native σ) (w : World σ) (device : Device) :
    Play8 N w device [] = none := rfl

/-- On a non-empty buffer of fewer than 2^31 samples (the range of a Go
slice length), `Play16` makes one `ao_play` call with twice the sample
count as byte length, and returns whether the call returned non-zero. -/
theorem Play16_nonempty {σ : Type} (N : Native σ) (w : World σ) (device : Device)
    (s : Int) (rest : List Int) (hlen : (s :: rest).length < 2 ^ 31) :
    ∃ run, Play16 N w device (s :: rest) = some run ∧
      run.events = [Event.ao_play device.ao (2 * (s :: rest).length)
        (N.ao_play w.native device.ao (RawBuf.int16s (s :: rest))
          (2 * (s :: rest).length)).1] ∧
      (run.ret.2 = true ↔
        (N.ao_play w.native device.ao (RawBuf.int16s (s :: rest))
          (2 * (s :: rest).length)).1 ≠ 0) := by
  have hnum : uint_32 ((s :: rest).length * 2) = 2 * (s :: rest).length := by
    unfold uint_32
    omega
  refine ⟨_, rfl, ?_, ?_⟩
  · simp only [hnum]
  · simp only [hnum, decide_eq_true_eq]

/-- On a non-empty buffer of fewer than 2^31 bytes, whatever the format the
device was opened with, `Play8` makes one `ao_play` call with the buffer
length as byte length, and returns whether the call returned non-zero. -/
theorem Play8_nonempty {σ : Type} (N : Native σ) (w : World σ) (device : Device)
    (s : Nat) (rest : List Nat) (hlen : (s :: rest).length < 2 ^ 31) :
    ∃ run, Play8 N w device (s :: rest) = some run ∧
      run.events = [Event.ao_play device.ao (s :: rest).length
        (N.ao_play w.native device.ao (RawBuf.bytes (s :: rest)) (s :: rest).length).1] ∧
      (run.ret.2 = true ↔
        (N.ao_play w.native device.ao (RawBuf.bytes (s :: rest)) (s :: rest).length).1
          ≠ 0) := by
  have hnum : uint_32 (s :: rest).length = (s :: rest).length := by
    unfold uint_32
    omega
  refine ⟨_, rfl, ?_, ?_⟩
  · simp only [hnum]
  · simp only [hnum, decide_eq_true_eq]

/-- Claim C6 fails on the code.  On the test double, a device with handle 7
is closed; the receiver still holds handle 7, and a second `Close`, a
`Play8` and a `Play16` on it each pass handle 7 to the native layer. -/
theorem use_after_Close_reaches_native :
    (Close stub (world0 0) { ao := 7 }).events = [Event.ao_close 7 1] ∧
    (Close stub (world0 0) { ao := 7 }).ret.1 = { ao := 7 } ∧
    (Close stub (Close stub (world0 0) { ao := 7 }).world
        (Close stub (world0 0) { ao := 7 }).ret.1).events = [Event.ao_close 7 1] ∧
    (Play8 stub (Close stub (world0 0) { ao := 7 }).world
        (Close stub (world0 0) { ao := 7 }).ret.1 [0, 0]).map (fun r => r.events)
      = some [Event.ao_play 7 2 1] ∧
    (Play16 stub (Close stub (world0 0) { ao := 7 }).world
        (Close stub (world0 0) { ao := 7 }).ret.1 [0, 0]).map (fun r => r.events)
      = some [Event.ao_play 7 4 1] := by
  decide

/-- Claim C6, as the code has it.  `Close` passes the handle to `ao_close`
once, returns whether that call returned non-zero, and leaves the receiver
as it was: the wrapper records no closed state, and a later `Close`,
`Play8` or `Play16` on the same `Device` passes the same handle to the
native layer again. -/
theorem Close_keeps_handle {σ : Type} (N : Native σ) (w : World σ) (device : Device) :
    (Close N w device).ret.1 = device ∧
    (Close N w device).events = [Event.ao_close device.ao (N.ao_close w.native device.ao).1] ∧
    ((Close N w device).ret.2 = true ↔ (N.ao_close w.native device.ao).1 ≠ 0) ∧
    (∃ r, (Close N (Close N w device).world (Close N w device).ret.1).events
      = [Event.ao_close device.ao r]) ∧
    (∀ b bs, ∃ run n r,
      Play8 N (Close N w device).world (Close N w device).ret.1 (b :: bs) = some run ∧
      run.events = [Event.ao_play device.ao n r]) ∧
    (∀ b bs, ∃ run n r,
      Play16 N (Close N w device).world (Close N w device).ret.1 (b :: bs) = some run ∧
      run.events = [Event.ao_play device.ao n r]) := by
  refine ⟨rfl, rfl, by simp [Close], ⟨_, rfl⟩, ?_, ?_⟩
  · intro b bs
    exact ⟨_, _, _, rfl, rfl⟩
  · intro b bs
    exact ⟨_, _, _, rfl, rfl⟩

end Ao
